import Mathlib

/-!
Shallow embedding of `src/client/src/pages/Calendar.tsx` (the `Calendar`
React component) and verification of the frozen claims about it.

Modelling conventions:
* Times carried by calendar items (`item.date`, parsed `startTime`/`endTime`)
  are epoch milliseconds as `Int`, matching the JS `Date.getTime()` values the
  component computes with.  ISO strings that the source parses with `parseISO`
  are embedded as their parsed millisecond values (`Option Int` when the field
  is optional); `parseISO` applied to a missing value throws in JS, which the
  embedding models as the exceptional branch of the surrounding `try`.
* The displayed period (`currentDate`) is a civil date structure, because the
  `date-fns` operations used by the navigation handlers (`addMonths`,
  `subMonths`, `addWeeks`, `subWeeks`) are calendar arithmetic; the day-view
  branch adds raw milliseconds, modelled timezone-free.
* Store mutations are embedded as an emitted command trace plus an explicit
  application function on a store snapshot; handlers return plain (total)
  results, with the `try`/`catch` of the source reflected as an explicit
  success flag and toast value.
-/

namespace Calendar

/-- Milliseconds in one day, the `24 * 60 * 60 * 1000` constant of the source. -/
def msPerDay : Int := 86400000

/-- `date-fns` `startOfDay`, timezone-free: truncate an epoch-ms instant to
midnight of its day.  `Int` `emod` by the positive constant gives the
floor-style remainder, matching calendar-day truncation. -/
def startOfDayMs (t : Int) : Int := t - t % msPerDay

/-- `date-fns` `isSameDay`, timezone-free: two instants fall on the same
civil day iff their day numbers (floor division by `msPerDay`) agree. -/
def isSameDayMs (a b : Int) : Bool := a / msPerDay == b / msPerDay

/-- The `type` tag of a calendar item (`'task' | 'event' | 'goal' |
'reminder' | 'timeblock'` in the source). -/
inductive ItemType where
  | task
  | event
  | goal
  | reminder
  | timeblock
deriving DecidableEq, Repr

/-- The string form of an `ItemType`, as it appears in the source's union
type and in the type-filter `Select` options. -/
def ItemType.toStr : ItemType → String
  | .task => "task"
  | .event => "event"
  | .goal => "goal"
  | .reminder => "reminder"
  | .timeblock => "timeblock"

/-- The unified display item consumed by the component (the `CalendarItem`
shape used at lines 139-146, 196-216, 301, 387, 426, 441-444 of the source).
`date` is required, as in the TS interface; `startTime`/`endTime` are the
parsed epoch-ms values of the optional ISO strings. -/
structure CalendarItem where
  id : String
  title : String
  description : Option String
  itemType : ItemType
  date : Int
  project : Option String
  startTime : Option Int
  endTime : Option Int
  duration : Option Int
  status : Option String
deriving DecidableEq, Repr

/-- `startsWithL s p` : the list `p` is an initial segment of `s`
(character-by-character), the primitive under JS `String.includes`. -/
def startsWithL : List Char → List Char → Bool
  | _, [] => true
  | [], _ :: _ => false
  | a :: as, b :: bs => a == b && startsWithL as bs

/-- JS `String.prototype.includes` on character lists: `sub` occurs
contiguously inside `s`. -/
def containsSub : List Char → List Char → Bool
  | s, sub =>
    startsWithL s sub ||
      match s with
      | [] => false
      | _ :: rest => containsSub rest sub

/-- JS `String.prototype.toLowerCase`, character by character. -/
def toLowerL (s : List Char) : List Char := s.map Char.toLower

/-- Case-insensitive containment, the `a.toLowerCase().includes(b.toLowerCase())`
pattern of the source's search filter. -/
def containsCI (s sub : String) : Bool :=
  containsSub (toLowerL s.data) (toLowerL sub.data)

/-- The filter predicate applied to each calendar item by `filteredItems`
(source lines 139-146): `matchesSearch && matchesProject && matchesType`,
with the search matching title, or description when present (JS optional
chaining makes a missing description fail the search branch), the project
filter passing on `'all'` or string equality, and the type filter passing on
`'all'` or equality with the item's type tag. -/
def itemMatches (searchQuery filterProject filterType : String)
    (item : CalendarItem) : Bool :=
  let matchesSearch :=
    containsCI item.title searchQuery ||
      (match item.description with
       | some d => containsCI d searchQuery
       | none => false)
  let matchesProject := filterProject == "all" || item.project == some filterProject
  let matchesType := filterType == "all" || item.itemType.toStr == filterType
  matchesSearch && matchesProject && matchesType

/-- `filteredItems` (source lines 139-146): the calendar items surviving the
search/project/type filters. -/
def filteredItems (items : List CalendarItem)
    (searchQuery filterProject filterType : String) : List CalendarItem :=
  items.filter (itemMatches searchQuery filterProject filterType)

/-! ### Civil dates and the navigation handlers (source lines 152-176) -/

/-- A JS `Date` value, timezone-free: civil year, month (`0`-`11` as in JS),
day of month (`1`-based), and milliseconds elapsed within the day. -/
structure DateD where
  year : Int
  month : Nat
  day : Nat
  timeMs : Int
deriving DecidableEq, Repr

/-- Gregorian leap year, as JS `Date` month arithmetic uses it. -/
def isLeap (y : Int) : Bool :=
  y % 4 == 0 && (y % 100 != 0 || y % 400 == 0)

/-- Number of days in month `m` (`0`-`11`) of year `y`. -/
def daysInMonth (y : Int) (m : Nat) : Nat :=
  if m == 1 then (if isLeap y then 29 else 28)
  else if m == 3 || m == 5 || m == 8 || m == 10 then 30
  else 31

/-- The next civil day, time-of-day preserved. -/
def nextDay (d : DateD) : DateD :=
  if d.day < daysInMonth d.year d.month then { d with day := d.day + 1 }
  else if d.month < 11 then { d with month := d.month + 1, day := 1 }
  else { d with year := d.year + 1, month := 0, day := 1 }

/-- The previous civil day, time-of-day preserved. -/
def prevDay (d : DateD) : DateD :=
  if 1 < d.day then { d with day := d.day - 1 }
  else if 0 < d.month then
    { d with month := d.month - 1, day := daysInMonth d.year (d.month - 1) }
  else { d with year := d.year - 1, month := 11, day := daysInMonth (d.year - 1) 11 }

/-- Add a (possibly negative) number of days to a civil date. -/
def addDaysI (d : DateD) (n : Int) : DateD :=
  if 0 ≤ n then nextDay^[n.toNat] d else prevDay^[(-n).toNat] d

/-- `date-fns` `addMonths` (and `subMonths` via a negative argument):
move to the month `n` months away, keeping the day of month but clamping it
to the target month's length, time-of-day preserved. -/
def addMonths (d : DateD) (n : Int) : DateD :=
  let idx := d.year * 12 + (d.month : Int) + n
  let y := idx / 12
  let m := (idx % 12).toNat
  { year := y, month := m, day := min d.day (daysInMonth y m), timeMs := d.timeMs }

/-- `date-fns` `addWeeks` (and `subWeeks` via a negative argument): shift by
`7 * n` days. -/
def addWeeks (d : DateD) (n : Int) : DateD := addDaysI d (7 * n)

/-- `new Date(prev.getTime() + delta)`: shift an instant by `delta`
milliseconds, carrying whole days into the civil date (timezone-free). -/
def addMs (d : DateD) (delta : Int) : DateD :=
  let t := d.timeMs + delta
  { addDaysI d (t / msPerDay) with timeMs := t % msPerDay }

/-- The view selector state (`type ViewType` at line 64 of the source). -/
inductive ViewType where
  | month
  | week
  | day
  | list
deriving DecidableEq, Repr

/-- `navigateNext` (source lines 162-170): one month / one week forward, or
`+ 24 * 60 * 60 * 1000` milliseconds in day view; the `if`/`else if` chain has
no branch for `'list'`, so the date is returned unchanged there. -/
def navigateNext (viewType : ViewType) (currentDate : DateD) : DateD :=
  match viewType with
  | .month => addMonths currentDate 1
  | .week => addWeeks currentDate 1
  | .day => addMs currentDate msPerDay
  | .list => currentDate

/-- `navigatePrevious` (source lines 152-160): the mirror of `navigateNext`,
using `subMonths`/`subWeeks`/`- 24 * 60 * 60 * 1000`. -/
def navigatePrevious (viewType : ViewType) (currentDate : DateD) : DateD :=
  match viewType with
  | .month => addMonths currentDate (-1)
  | .week => addWeeks currentDate (-1)
  | .day => addMs currentDate (-msPerDay)
  | .list => currentDate

/-- The month index of a civil date on the absolute scale `year * 12 + month`;
"advancing by exactly one month" is moving this index by one. -/
def monthIndex (d : DateD) : Int := d.year * 12 + (d.month : Int)

/-! ### Local view state, the store, and the mutation-issuing handlers -/

/-- The component's local view state: the `useState` hooks of lines 100-121
(current/selected date, view type, workload toggle, the five modal flags, and
the three filter states).  The drag state (`draggedItem`/`draggedOver`,
lines 115-116) is tracked separately because `handleDrop` clears it. -/
structure ViewState where
  currentDate : DateD
  selectedDate : DateD
  viewType : ViewType
  showWorkload : Bool
  isTaskFormOpen : Bool
  isEventFormOpen : Bool
  isTimeBlockFormOpen : Bool
  isFocusModeOpen : Bool
  isRecurrenceFormOpen : Bool
  searchQuery : String
  filterProject : String
  filterType : String
deriving DecidableEq, Repr

/-- A stored task record, with the fields the component reads or patches
(`dueDate`, `isAutoRolled`) plus a representative non-date field (`title`)
to express frame conditions. -/
structure StoredTask where
  id : String
  title : String
  dueDate : Int
  isAutoRolled : Bool
deriving DecidableEq, Repr

/-- A stored event record (patched fields `startDate`/`endDate` plus a
representative non-date field). -/
structure StoredEvent where
  id : String
  title : String
  startDate : Int
  endDate : Int
deriving DecidableEq, Repr

/-- A stored time block record (patched fields `startTime`/`endTime` plus a
representative non-date field). -/
structure StoredTimeBlock where
  id : String
  title : String
  startTime : Int
  endTime : Int
deriving DecidableEq, Repr

/-- A snapshot of the store collections the component can mutate. -/
structure Store where
  tasks : List StoredTask
  events : List StoredEvent
  timeBlocks : List StoredTimeBlock
deriving DecidableEq, Repr

/-- The partial update passed to `updateTask`: `{ dueDate }` from
`handleDrop`, `{ dueDate, isAutoRolled: true }` from the rollover pass. -/
structure TaskPatch where
  dueDate : Option Int
  isAutoRolled : Option Bool
deriving DecidableEq, Repr

/-- The partial update passed to `updateEvent` by `handleDrop`:
`{ startDate, endDate }`. -/
structure EventPatch where
  startDate : Option Int
  endDate : Option Int
deriving DecidableEq, Repr

/-- The partial update passed to `updateTimeBlock` by `handleDrop`:
`{ startTime, endTime }`. -/
structure TimeBlockPatch where
  startTime : Option Int
  endTime : Option Int
deriving DecidableEq, Repr

/-- A store mutation call issued by the component: which update operation,
on which record id, with which field patch. -/
inductive StoreMutation where
  | updTask : String → TaskPatch → StoreMutation
  | updEvent : String → EventPatch → StoreMutation
  | updTimeBlock : String → TimeBlockPatch → StoreMutation
deriving DecidableEq, Repr

/-- The id targeted by a mutation call. -/
def StoreMutation.targetId : StoreMutation → String
  | .updTask id _ => id
  | .updEvent id _ => id
  | .updTimeBlock id _ => id

/-- Modelled from the spec: the store (external `useAppStore`, not under
`src/`) exposes "mutation operations (create/update/delete for each entity
kind)"; its update operation patches the given fields of the record with the
matching id and touches nothing else. -/
def applyMutation (s : Store) (m : StoreMutation) : Store :=
  match m with
  | .updTask id p =>
      { s with tasks := s.tasks.map fun tk =>
          if tk.id == id then
            { tk with dueDate := p.dueDate.getD tk.dueDate,
                      isAutoRolled := p.isAutoRolled.getD tk.isAutoRolled }
          else tk }
  | .updEvent id p =>
      { s with events := s.events.map fun ev =>
          if ev.id == id then
            { ev with startDate := p.startDate.getD ev.startDate,
                      endDate := p.endDate.getD ev.endDate }
          else ev }
  | .updTimeBlock id p =>
      { s with timeBlocks := s.timeBlocks.map fun tb =>
          if tb.id == id then
            { tb with startTime := p.startTime.getD tb.startTime,
                      endTime := p.endTime.getD tb.endTime }
          else tb }

/-- A toast raised via `useToast`: the success toast of line 218 or the
destructive error toast of lines 223 and 274. -/
inductive Toast where
  | success
  | error
deriving DecidableEq, Repr

/-- The observable outcome of one `handleDrop` invocation: the store calls it
issued, the toast it raised (if any), the view state afterwards, and the drag
state afterwards. -/
structure DropResult where
  mutations : List StoreMutation
  toast : Option Toast
  view : ViewState
  draggedItem : Option CalendarItem
  draggedOver : Option Int
deriving Repr

/-- The `try` block of `handleDrop` (source lines 193-221): the store calls
issued and whether the block completed without throwing.  `storeOk = false`
models the awaited store call rejecting.  For an event or time block whose
`endTime` is present but whose `startTime` is missing, the source evaluates
`parseISO(draggedItem.startTime!)` on `undefined`, which throws before any
store call is made. -/
def dropTryBody (storeOk : Bool) (item : CalendarItem) (dropDate : Int) :
    List StoreMutation × Bool :=
  let newDate := startOfDayMs dropDate
  match item.itemType with
  | .task =>
      ([.updTask item.id ⟨some newDate, none⟩], storeOk)
  | .event =>
      match item.endTime with
      | some e =>
          match item.startTime with
          | some s =>
              ([.updEvent item.id ⟨some newDate, some (newDate + (e - s))⟩], storeOk)
          | none => ([], false)
      | none =>
          ([.updEvent item.id ⟨some newDate, some (newDate + 3600000)⟩], storeOk)
  | .timeblock =>
      match item.endTime with
      | some e =>
          match item.startTime with
          | some s =>
              ([.updTimeBlock item.id ⟨some newDate, some (newDate + (e - s))⟩], storeOk)
          | none => ([], false)
      | none =>
          ([.updTimeBlock item.id ⟨some newDate, some (newDate + 3600000)⟩], storeOk)
  | .goal => ([], true)
  | .reminder => ([], true)

/-- `handleDrop` (source lines 188-232).  With no dragged item it returns
before the `try`, so nothing happens and even the drag state is untouched.
Otherwise the `try` body runs; completing it raises the success toast, a
throw is caught and raises the error toast, and the `finally` clears the
drag state either way.  The embedding is a total function: no exception
escapes the handler. -/
def handleDrop (storeOk : Bool) (view : ViewState)
    (draggedItem : Option CalendarItem) (draggedOver : Option Int)
    (dropDate : Int) : DropResult :=
  match draggedItem with
  | none =>
      { mutations := [], toast := none, view := view,
        draggedItem := draggedItem, draggedOver := draggedOver }
  | some item =>
      let r := dropTryBody storeOk item dropDate
      { mutations := r.1,
        toast := some (if r.2 then Toast.success else Toast.error),
        view := view,
        draggedItem := none,
        draggedOver := none }

/-- The observable outcome of one `handleUpdateCalendarItem` invocation; the
`updates : Partial<CalendarItem>` payload is forwarded opaquely to the store,
so it is a type parameter. -/
structure UpdateResult (α : Type) where
  calls : List (ItemType × String × α)
  toast : Option Toast
  view : ViewState
deriving Repr

/-- `handleUpdateCalendarItem` (source lines 257-280): look the item up in the
calendar items by id (returning silently when absent), dispatch one store
update call on the item's type (the `switch` has no branch for `'goal'` or
`'reminder'`), and catch a failure with the error toast; no success toast is
raised here. -/
def handleUpdateCalendarItem {α : Type} (storeOk : Bool) (view : ViewState)
    (calendarItems : List CalendarItem) (id : String) (updates : α) :
    UpdateResult α :=
  match calendarItems.find? (fun i => i.id == id) with
  | none => { calls := [], toast := none, view := view }
  | some item =>
      match item.itemType with
      | .task =>
          { calls := [(.task, id, updates)],
            toast := if storeOk then none else some Toast.error, view := view }
      | .event =>
          { calls := [(.event, id, updates)],
            toast := if storeOk then none else some Toast.error, view := view }
      | .timeblock =>
          { calls := [(.timeblock, id, updates)],
            toast := if storeOk then none else some Toast.error, view := view }
      | .goal => { calls := [], toast := none, view := view }
      | .reminder => { calls := [], toast := none, view := view }

/-! ### The auto-rollover pass (source lines 124-133) -/

/-- Modelled from the spec: `autoRolloverTasks` lives in the excluded helper
module `@/utils/calendarHelpers`; the spec glossary defines auto-rollover as
the "rule that advances an overdue task's due date forward to the current
day", marking the task as auto-rolled. -/
def autoRolloverTasks (today : Int) (tasks : List StoredTask) : List StoredTask :=
  tasks.map fun t =>
    if t.dueDate < today then { t with dueDate := today, isAutoRolled := true }
    else t

/-- The mount-time rollover pass (source lines 124-133): run
`autoRolloverTasks`, keep the rolled tasks whose `isAutoRolled` flag differs
from the original task at the same index (the source's indexed `filter`
against `tasks[index]`, embedded by zipping the two equal-length lists), and
issue one `updateTask` per kept task carrying its rolled `dueDate` and
`isAutoRolled: true`. -/
def rolloverMutations (today : Int) (tasks : List StoredTask) :
    List StoreMutation :=
  let rolledTasks := autoRolloverTasks today tasks
  let tasksToUpdate :=
    ((rolledTasks.zip tasks).filter fun p =>
      p.1.isAutoRolled != p.2.isAutoRolled).map Prod.fst
  tasksToUpdate.map fun t => .updTask t.id ⟨some t.dueDate, some true⟩

/-! ### The three render paths (source lines 283-501) -/

/-- The items of one day cell in the month or week grid (source lines 301 and
387): the filtered items falling on that day. -/
def dayItemsOn (items : List CalendarItem)
    (searchQuery filterProject filterType : String) (day : Int) :
    List CalendarItem :=
  (filteredItems items searchQuery filterProject filterType).filter
    fun item => isSameDayMs item.date day

/-- What one month-view day cell displays (source lines 339-370): the first
three of the day's items, and an overflow indicator `+{n - 3}` exactly when
the day has more than three items. -/
structure MonthCell where
  shown : List CalendarItem
  overflow : Option Nat
deriving Repr

/-- The month-view day cell for a given day (source lines 339-370). -/
def renderMonthCell (items : List CalendarItem)
    (searchQuery filterProject filterType : String) (day : Int) : MonthCell :=
  let dayItems := dayItemsOn items searchQuery filterProject filterType day
  { shown := dayItems.take 3,
    overflow := if dayItems.length > 3 then some (dayItems.length - 3) else none }

/-- The JS comparator of `renderListView` (source lines 442-444), as a `Bool`
ordering on the parsed `startTime` values.  The source dereferences
`item.startTime!` unconditionally, so the comparator is only faithful on
items that carry a `startTime`; `getD 0` is never relied upon under that
hypothesis. -/
def startTimeLe (a b : CalendarItem) : Bool :=
  a.startTime.getD 0 ≤ b.startTime.getD 0

/-- `sortedItems` of `renderListView` (source lines 441-444): the filtered
items sorted by ascending parsed `startTime`. -/
def sortedListItems (items : List CalendarItem)
    (searchQuery filterProject filterType : String) : List CalendarItem :=
  (filteredItems items searchQuery filterProject filterType).mergeSort startTimeLe

/-! ### Helper lemmas -/

theorem startsWithL_nil (s : List Char) : startsWithL s [] = true := by
  cases s <;> rfl

theorem containsSub_nil (s : List Char) : containsSub s [] = true := by
  unfold containsSub
  simp [startsWithL_nil]

theorem containsCI_empty (s : String) : containsCI s "" = true := by
  have h : toLowerL ("" : String).data = [] := rfl
  rw [containsCI, h]
  exact containsSub_nil _

/-- The boolean filter predicate of the source, as a proposition in the
claim's language. -/
theorem itemMatches_iff (q p t : String) (i : CalendarItem) :
    itemMatches q p t i = true ↔
      (containsCI i.title q = true ∨
        ∃ d, i.description = some d ∧ containsCI d q = true) ∧
      (p = "all" ∨ i.project = some p) ∧
      (t = "all" ∨ i.itemType.toStr = t) := by
  unfold itemMatches
  cases hd : i.description <;>
    simp [hd, Bool.and_eq_true, Bool.or_eq_true, beq_iff_eq, and_assoc]

/-- C2: the filtered set is exactly the subset of calendar items whose title
or description contains the search query case-insensitively, whose project
equals the project filter (or the filter is `"all"`), and whose type equals
the type filter (or the filter is `"all"`); it is always a sublist (hence a
subset) of the unfiltered items, and with empty query and both filters
`"all"` it equals the unfiltered list. -/
theorem filteredItems_correct (items : List CalendarItem) (q p t : String) :
    (∀ i, i ∈ filteredItems items q p t ↔
      i ∈ items ∧
        ((containsCI i.title q = true ∨
            ∃ d, i.description = some d ∧ containsCI d q = true) ∧
          (p = "all" ∨ i.project = some p) ∧
          (t = "all" ∨ i.itemType.toStr = t))) ∧
    (filteredItems items q p t).Sublist items ∧
    filteredItems items "" "all" "all" = items := by
  refine ⟨fun i => ?_, List.filter_sublist _, ?_⟩
  · rw [filteredItems, List.mem_filter, itemMatches_iff]
  · rw [filteredItems, List.filter_eq_self]
    intro a _
    rw [itemMatches_iff]
    exact ⟨Or.inl (containsCI_empty _), Or.inl rfl, Or.inl rfl⟩

/-- C9: each month-view day cell shows at most the first three of that day's
items (`dayItems.slice(0, 3)`), and the overflow indicator appears exactly
when the day has more than three items, with count equal to the day's total
minus three. -/
theorem monthCell_overflow (items : List CalendarItem)
    (q p t : String) (day : Int) :
    (renderMonthCell items q p t day).shown =
      (dayItemsOn items q p t day).take 3 ∧
    (renderMonthCell items q p t day).shown.length =
      min 3 (dayItemsOn items q p t day).length ∧
    ((dayItemsOn items q p t day).length > 3 ↔
      (renderMonthCell items q p t day).overflow =
        some ((dayItemsOn items q p t day).length - 3)) ∧
    ((dayItemsOn items q p t day).length ≤ 3 ↔
      (renderMonthCell items q p t day).overflow = none) := by
  refine ⟨rfl, List.length_take .., ?_, ?_⟩
  · by_cases h : (dayItemsOn items q p t day).length > 3 <;>
      simp [renderMonthCell, h]
  · by_cases h : (dayItemsOn items q p t day).length > 3 <;>
      simp [renderMonthCell, h] <;> omega

/-- C10: with no dragged item `handleDrop` returns before the `try`, issuing
no store call and raising no toast; for a dragged goal or reminder no `if`
branch fires, so no store call is issued, yet the success toast is raised and
the `finally` clears the drag state. -/
theorem handleDrop_no_drag_goal_reminder
    (storeOk : Bool) (v : ViewState) (dov : Option Int) (d : Int)
    (item : CalendarItem) :
    (handleDrop storeOk v none dov d).mutations = [] ∧
    (handleDrop storeOk v none dov d).toast = none ∧
    (handleDrop storeOk v none dov d).view = v ∧
    (handleDrop storeOk v none dov d).draggedOver = dov ∧
    ((item.itemType = ItemType.goal ∨ item.itemType = ItemType.reminder) →
      (handleDrop storeOk v (some item) dov d).mutations = [] ∧
      (handleDrop storeOk v (some item) dov d).toast = some Toast.success ∧
      (handleDrop storeOk v (some item) dov d).draggedItem = none ∧
      (handleDrop storeOk v (some item) dov d).draggedOver = none) := by
  refine ⟨rfl, rfl, rfl, rfl, fun h => ?_⟩
  rcases h with h | h <;> simp [handleDrop, dropTryBody, h]

theorem handleDrop_no_drag_goal_reminder_witness :
    (handleDrop true
        ⟨⟨2024, 0, 1, 0⟩, ⟨2024, 0, 1, 0⟩, ViewType.month, false, false,
          false, false, false, false, "", "all", "all"⟩
        (some ⟨"g1", "gym goal", none, ItemType.goal, 0, none, none, none,
          none, none⟩) none 0).mutations = [] ∧
    (handleDrop true
        ⟨⟨2024, 0, 1, 0⟩, ⟨2024, 0, 1, 0⟩, ViewType.month, false, false,
          false, false, false, false, "", "all", "all"⟩
        (some ⟨"g1", "gym goal", none, ItemType.goal, 0, none, none, none,
          none, none⟩) none 0).toast = some Toast.success :=
  ⟨((handleDrop_no_drag_goal_reminder true _ none 0 _).2.2.2.2
      (Or.inl rfl)).1,
   ((handleDrop_no_drag_goal_reminder true _ none 0 _).2.2.2.2
      (Or.inl rfl)).2.1⟩

/-- C7: neither handler retries a store mutation: one invocation of
`handleDrop` or `handleUpdateCalendarItem` issues at most one store call in
total (hence at most one per affected entity), so a failure of that single,
final call is never followed by another mutation call. -/
theorem handlers_no_retry (α : Type) (storeOk : Bool) (v : ViewState)
    (di : Option CalendarItem) (dov : Option Int) (d : Int)
    (items : List CalendarItem) (id : String) (u : α) :
    (handleDrop storeOk v di dov d).mutations.length ≤ 1 ∧
    (handleUpdateCalendarItem storeOk v items id u).calls.length ≤ 1 := by
  constructor
  · cases di with
    | none => simp [handleDrop]
    | some item =>
      cases h : item.itemType <;>
        cases hE : item.endTime <;>
        cases hS : item.startTime <;>
          simp [handleDrop, dropTryBody, h, hE, hS]
  · cases hf : items.find? (fun i => i.id == id) with
    | none => simp [handleUpdateCalendarItem, hf]
    | some item =>
      cases h : item.itemType <;> simp [handleUpdateCalendarItem, hf, h]

/-- C4: the handlers are total functions of their inputs (modelling that no
exception escapes the `try`/`catch`), never touch the local view state
(current/selected date, view type, filters, modal flags), and a store call
failure (`storeOk = false` with a call actually issued) raises the
destructive error toast. -/
theorem handlers_catch_failures (α : Type) (storeOk : Bool) (v : ViewState)
    (di : Option CalendarItem) (dov : Option Int) (d : Int)
    (items : List CalendarItem) (id : String) (u : α) :
    (handleDrop storeOk v di dov d).view = v ∧
    (handleUpdateCalendarItem storeOk v items id u).view = v ∧
    (storeOk = false → (handleDrop storeOk v di dov d).mutations ≠ [] →
      (handleDrop storeOk v di dov d).toast = some Toast.error) ∧
    (storeOk = false →
      (handleUpdateCalendarItem storeOk v items id u).calls ≠ [] →
      (handleUpdateCalendarItem storeOk v items id u).toast =
        some Toast.error) := by
  refine ⟨?_, ?_, ?_, ?_⟩
  · cases di <;> rfl
  · cases hf : items.find? (fun i => i.id == id) with
    | none => simp [handleUpdateCalendarItem, hf]
    | some item =>
      cases h : item.itemType <;> simp [handleUpdateCalendarItem, hf, h]
  · intro hs hm
    cases di with
    | none => simp [handleDrop] at hm
    | some item =>
      subst hs
      cases h : item.itemType <;>
        cases hE : item.endTime <;>
        cases hS : item.startTime <;>
          simp [handleDrop, dropTryBody, h, hE, hS] at hm ⊢
  · intro hs hm
    subst hs
    cases hf : items.find? (fun i => i.id == id) with
    | none => simp [handleUpdateCalendarItem, hf] at hm
    | some item =>
      cases h : item.itemType <;>
        simp [handleUpdateCalendarItem, hf, h] at hm ⊢

theorem handlers_catch_failures_witness :
    (handleDrop false
        ⟨⟨2024, 0, 1, 0⟩, ⟨2024, 0, 1, 0⟩, ViewType.month, false, false,
          false, false, false, false, "", "all", "all"⟩
        (some ⟨"t1", "tidy desk", none, ItemType.task, 0, none, none, none,
          none, none⟩) none 0).toast = some Toast.error ∧
    (handleUpdateCalendarItem false
        ⟨⟨2024, 0, 1, 0⟩, ⟨2024, 0, 1, 0⟩, ViewType.month, false, false,
          false, false, false, false, "", "all", "all"⟩
        [⟨"t1", "tidy desk", none, ItemType.task, 0, none, none, none,
          none, none⟩] "t1" (0 : Nat)).toast = some Toast.error :=
  ⟨(handlers_catch_failures Nat false _ _ none 0 [] "t1" 0).2.2.1 rfl
      (by simp [handleDrop, dropTryBody]),
   (handlers_catch_failures Nat false _ none none 0
        [⟨"t1", "tidy desk", none, ItemType.task, 0, none, none, none,
          none, none⟩] "t1" 0).2.2.2 rfl
      (by simp [handleUpdateCalendarItem])⟩

/-- C6: the one-shot mount pass (the `useEffect` with empty dependency array)
issues exactly one `updateTask` per task whose `isAutoRolled` flag differs
between the `autoRolloverTasks` output and the original list at the same
index — under the spec-modelled rollover rule these are exactly the overdue,
not-yet-rolled tasks — and each call carries the rolled-forward `dueDate`
(the current day) and `isAutoRolled: true`; all other tasks get no call. -/
theorem rollover_updates_exactly_flagged (today : Int)
    (tasks : List StoredTask) :
    rolloverMutations today tasks =
      (tasks.filter fun tk => decide (tk.dueDate < today) && !tk.isAutoRolled).map
        (fun tk => StoreMutation.updTask tk.id ⟨some today, some true⟩) := by
  induction tasks with
  | nil => rfl
  | cons tk ts ih =>
    unfold rolloverMutations autoRolloverTasks at ih ⊢
    by_cases h1 : tk.dueDate < today
    · by_cases h2 : tk.isAutoRolled
      · simpa [h1, h2] using ih
      · simpa [h1, h2] using ih
    · simpa [h1] using ih

/-- C8: the list view's `sortedItems` is a permutation of the filtered items
that is pairwise non-decreasing in `startTime`.  The hypothesis that every
filtered item carries a `startTime` reflects the source's unchecked
`item.startTime!` dereference, under which the embedded comparator agrees
with the JS one. -/
theorem listView_sorted_permutation (items : List CalendarItem)
    (q p t : String)
    (_h : ∀ i ∈ filteredItems items q p t, i.startTime.isSome = true) :
    (sortedListItems items q p t).Perm (filteredItems items q p t) ∧
    (sortedListItems items q p t).Pairwise (fun a b => ∀ sa sb,
      a.startTime = some sa → b.startTime = some sb → sa ≤ sb) := by
  constructor
  · exact List.mergeSort_perm _ _
  · have htrans : ∀ a b c : CalendarItem, startTimeLe a b = true →
        startTimeLe b c = true → startTimeLe a c = true := by
      intro a b c hab hbc
      simp only [startTimeLe, decide_eq_true_eq] at hab hbc ⊢
      exact le_trans hab hbc
    have htotal : ∀ a b : CalendarItem,
        (startTimeLe a b || startTimeLe b a) = true := by
      intro a b
      simp only [startTimeLe, Bool.or_eq_true, decide_eq_true_eq]
      exact le_total _ _
    have hp := List.sorted_mergeSort htrans htotal
      (filteredItems items q p t)
    rw [sortedListItems]
    refine hp.imp ?_
    intro a b hab sa sb ha hb
    simp only [startTimeLe, ha, hb, Option.getD_some, decide_eq_true_eq] at hab
    exact hab

theorem listView_sorted_permutation_witness :
    (sortedListItems
        [⟨"e1", "standup", none, ItemType.event, 0, none, some 500, some 600,
          none, none⟩,
         ⟨"e2", "lunch", none, ItemType.event, 0, none, some 300, some 400,
          none, none⟩] "" "all" "all").Perm
      (filteredItems
        [⟨"e1", "standup", none, ItemType.event, 0, none, some 500, some 600,
          none, none⟩,
         ⟨"e2", "lunch", none, ItemType.event, 0, none, some 300, some 400,
          none, none⟩] "" "all" "all") ∧
    (sortedListItems
        [⟨"e1", "standup", none, ItemType.event, 0, none, some 500, some 600,
          none, none⟩,
         ⟨"e2", "lunch", none, ItemType.event, 0, none, some 300, some 400,
          none, none⟩] "" "all" "all").Pairwise (fun a b => ∀ sa sb,
      a.startTime = some sa → b.startTime = some sb → sa ≤ sb) :=
  listView_sorted_permutation _ "" "all" "all" (by decide)

theorem addDaysI_nonneg (d : DateD) (n : Nat) :
    addDaysI d (n : Int) = nextDay^[n] d := by
  rw [addDaysI, if_pos (Int.ofNat_nonneg n), Int.toNat_natCast]

theorem addDaysI_negOf (d : DateD) (n : Nat) (h : 0 < n) :
    addDaysI d (-(n : Int)) = prevDay^[n] d := by
  rw [addDaysI, if_neg (by omega), neg_neg, Int.toNat_natCast]

theorem timeMs_nextDay (d : DateD) : (nextDay d).timeMs = d.timeMs := by
  rw [nextDay]
  split
  · rfl
  · split <;> rfl

theorem timeMs_prevDay (d : DateD) : (prevDay d).timeMs = d.timeMs := by
  rw [prevDay]
  split
  · rfl
  · split <;> rfl

/-- C3 counterexample: the claim extends "advances the displayed period by
exactly one unit" to every view the tab selector offers, including the list
view; but the `if`/`else if` chains of `navigateNext`/`navigatePrevious`
have no branch for `'list'`, so in list view both handlers leave the current
date exactly unchanged instead of advancing it. -/
theorem navigate_list_counterexample :
    navigateNext ViewType.list ⟨2024, 0, 15, 0⟩ = ⟨2024, 0, 15, 0⟩ ∧
    navigatePrevious ViewType.list ⟨2024, 0, 15, 0⟩ = ⟨2024, 0, 15, 0⟩ :=
  ⟨rfl, rfl⟩

/-- C3 amended: for the month, week and day views `navigateNext` advances the
displayed period by exactly one unit of the view — one absolute month (time
of day preserved), seven civil days, one civil day — and `navigatePrevious`
moves it back by exactly one such unit; in the list view (which the tab
selector does offer) both handlers leave the current date unchanged. -/
theorem navigate_one_unit (d : DateD) (h0 : 0 ≤ d.timeMs)
    (h1 : d.timeMs < msPerDay) :
    monthIndex (navigateNext ViewType.month d) = monthIndex d + 1 ∧
    monthIndex (navigatePrevious ViewType.month d) = monthIndex d - 1 ∧
    (navigateNext ViewType.month d).timeMs = d.timeMs ∧
    (navigatePrevious ViewType.month d).timeMs = d.timeMs ∧
    navigateNext ViewType.week d = nextDay^[7] d ∧
    navigatePrevious ViewType.week d = prevDay^[7] d ∧
    navigateNext ViewType.day d = nextDay d ∧
    navigatePrevious ViewType.day d = prevDay d ∧
    navigateNext ViewType.list d = d ∧
    navigatePrevious ViewType.list d = d := by
  have hmn : ∀ n : Int, monthIndex (addMonths d n) = monthIndex d + n := by
    intro n
    simp only [monthIndex, addMonths]
    omega
  have hq1 : (d.timeMs + msPerDay) / msPerDay = 1 := by
    unfold msPerDay at *
    omega
  have hr1 : (d.timeMs + msPerDay) % msPerDay = d.timeMs := by
    unfold msPerDay at *
    omega
  have hq2 : (d.timeMs + -msPerDay) / msPerDay = -1 := by
    unfold msPerDay at *
    omega
  have hr2 : (d.timeMs + -msPerDay) % msPerDay = d.timeMs := by
    unfold msPerDay at *
    omega
  refine ⟨hmn 1, hmn (-1), rfl, rfl, ?_, ?_, ?_, ?_, rfl, rfl⟩
  · show addWeeks d 1 = nextDay^[7] d
    have h7 : addWeeks d 1 = addDaysI d ((7 : Nat) : Int) := by
      norm_num [addWeeks]
    rw [h7, addDaysI_nonneg]
  · show addWeeks d (-1) = prevDay^[7] d
    have h7 : addWeeks d (-1) = addDaysI d (-((7 : Nat) : Int)) := by
      norm_num [addWeeks]
    rw [h7, addDaysI_negOf d 7 (by norm_num)]
  · show addMs d msPerDay = nextDay d
    simp only [addMs, hq1, hr1, addDaysI]
    norm_num
    rw [← timeMs_nextDay d]
  · show addMs d (-msPerDay) = prevDay d
    simp only [addMs, hq2, hr2, addDaysI]
    norm_num
    rw [← timeMs_prevDay d]

theorem navigate_one_unit_witness :
    monthIndex (navigateNext ViewType.month ⟨2024, 0, 31, 0⟩) =
      monthIndex ⟨2024, 0, 31, 0⟩ + 1 ∧
    navigateNext ViewType.day ⟨2024, 0, 31, 0⟩ = nextDay ⟨2024, 0, 31, 0⟩ ∧
    navigateNext ViewType.list ⟨2024, 0, 31, 0⟩ = ⟨2024, 0, 31, 0⟩ :=
  ⟨(navigate_one_unit ⟨2024, 0, 31, 0⟩ (by decide) (by decide)).1,
   (navigate_one_unit ⟨2024, 0, 31, 0⟩ (by decide)
      (by decide)).2.2.2.2.2.2.1,
   (navigate_one_unit ⟨2024, 0, 31, 0⟩ (by decide)
      (by decide)).2.2.2.2.2.2.2.2.1⟩

/-- C5 counterexample: the claim says items without a valid date value for
the fields the views render are excluded before display; but the filter
pipeline feeding the render paths never checks `startTime`, so an item with
no `startTime` still reaches the week-view day cell — whose renderer
dereferences `item.startTime!` for every item — without being excluded. -/
theorem no_exclusion_counterexample :
    (⟨"a1", "x", none, ItemType.event, 0, none, none, none, none, none⟩ :
        CalendarItem).startTime = none ∧
    dayItemsOn
        [⟨"a1", "x", none, ItemType.event, 0, none, none, none, none, none⟩]
        "" "all" "all" 0 =
      [⟨"a1", "x", none, ItemType.event, 0, none, none, none, none, none⟩] :=
  ⟨rfl, by decide⟩

/-- C5 amended: every item reaching a render path originates from the
calendar-item collection and structurally carries its required `date` field,
but the code enforces no validity invariant beyond that: the filter feeding
all three render paths is independent of `startTime`, so items lacking a
`startTime` are not excluded before display. -/
theorem render_inputs_no_validity_filter (items : List CalendarItem)
    (q p t : String) (day : Int) (v : Option Int) :
    (∀ i ∈ dayItemsOn items q p t day, i ∈ items) ∧
    (∀ i ∈ sortedListItems items q p t, i ∈ items) ∧
    (filteredItems (items.map fun i => { i with startTime := v }) q p t =
      (filteredItems items q p t).map fun i => { i with startTime := v }) := by
  refine ⟨?_, ?_, ?_⟩
  · intro i hi
    simp only [dayItemsOn, filteredItems] at hi
    exact List.mem_of_mem_filter (List.mem_of_mem_filter hi)
  · intro i hi
    simp only [sortedListItems, filteredItems] at hi
    exact List.mem_of_mem_filter (List.mem_mergeSort.mp hi)
  · rw [filteredItems, filteredItems, List.filter_map]
    exact congrArg _ (List.filter_congr fun i _ => rfl)

theorem render_inputs_no_validity_filter_witness :
    (⟨"a1", "x", none, ItemType.event, 0, none, none, none, none, none⟩ :
        CalendarItem) ∈
      ([⟨"a1", "x", none, ItemType.event, 0, none, none, none, none, none⟩] :
        List CalendarItem) ∧
    filteredItems
        (([⟨"a1", "x", none, ItemType.event, 0, none, none, none, none,
            none⟩] : List CalendarItem).map fun i =>
          { i with startTime := some 7 }) "" "all" "all" =
      (filteredItems
          [⟨"a1", "x", none, ItemType.event, 0, none, none, none, none,
            none⟩] "" "all" "all").map fun i => { i with startTime := some 7 } :=
  ⟨(render_inputs_no_validity_filter
        [⟨"a1", "x", none, ItemType.event, 0, none, none, none, none, none⟩]
        "" "all" "all" 0 (some 7)).1 _ (by decide),
   (render_inputs_no_validity_filter
        [⟨"a1", "x", none, ItemType.event, 0, none, none, none, none, none⟩]
        "" "all" "all" 0 (some 7)).2.2⟩

/-- The store's update operation is id-targeted: records with a different id
keep their membership, and no record's `title` (representative non-patched
field) ever changes. -/
theorem applyMutation_frame (store : Store) (m : StoreMutation) :
    (∀ tk ∈ store.tasks, tk.id ≠ m.targetId →
      tk ∈ (applyMutation store m).tasks) ∧
    (∀ ev ∈ store.events, ev.id ≠ m.targetId →
      ev ∈ (applyMutation store m).events) ∧
    (∀ tb ∈ store.timeBlocks, tb.id ≠ m.targetId →
      tb ∈ (applyMutation store m).timeBlocks) ∧
    (applyMutation store m).tasks.map StoredTask.title =
      store.tasks.map StoredTask.title ∧
    (applyMutation store m).events.map StoredEvent.title =
      store.events.map StoredEvent.title ∧
    (applyMutation store m).timeBlocks.map StoredTimeBlock.title =
      store.timeBlocks.map StoredTimeBlock.title := by
  rcases m with ⟨mid, pa⟩ | ⟨mid, pa⟩ | ⟨mid, pa⟩ <;>
    refine ⟨fun x hx hne => ?_, fun x hx hne => ?_, fun x hx hne => ?_,
      ?_, ?_, ?_⟩ <;>
    simp only [applyMutation, StoreMutation.targetId, List.map_map] at * <;>
    first
    | exact hx
    | rfl
    | (refine List.mem_map.mpr ⟨x, hx, ?_⟩
       simp [hne])
    | (refine List.map_congr_left fun a _ => ?_
       by_cases h : a.id = mid <;> simp [Function.comp, h])

/-- C1: `handleDrop` touches only the dragged item and only its date fields:
every issued store call targets the dragged item's id; a dragged task gets
exactly one `updateTask` whose patch carries only `dueDate`, set to the start
of the target day; a dragged event or time block with both `startTime` and
`endTime` gets exactly one update whose new start is the start of the target
day and whose new end minus new start equals the original `endTime` minus
`startTime` (duration preserved); and applying any issued call to a store
snapshot preserves every record with a different id and every record's
non-date fields, so no other item in the store is mutated. -/
theorem handleDrop_frame (storeOk : Bool) (v : ViewState)
    (dov : Option Int) (dropDate : Int) (item : CalendarItem)
    (store : Store) :
    (∀ m ∈ (handleDrop storeOk v (some item) dov dropDate).mutations,
      m.targetId = item.id) ∧
    (item.itemType = ItemType.task →
      (handleDrop storeOk v (some item) dov dropDate).mutations =
        [StoreMutation.updTask item.id ⟨some (startOfDayMs dropDate), none⟩]) ∧
    (∀ s e, item.itemType = ItemType.event → item.startTime = some s →
      item.endTime = some e →
      ∃ sd ed,
        (handleDrop storeOk v (some item) dov dropDate).mutations =
          [StoreMutation.updEvent item.id ⟨some sd, some ed⟩] ∧
        sd = startOfDayMs dropDate ∧ ed - sd = e - s) ∧
    (∀ s e, item.itemType = ItemType.timeblock → item.startTime = some s →
      item.endTime = some e →
      ∃ sd ed,
        (handleDrop storeOk v (some item) dov dropDate).mutations =
          [StoreMutation.updTimeBlock item.id ⟨some sd, some ed⟩] ∧
        sd = startOfDayMs dropDate ∧ ed - sd = e - s) ∧
    (∀ m ∈ (handleDrop storeOk v (some item) dov dropDate).mutations,
      (∀ tk ∈ store.tasks, tk.id ≠ item.id →
        tk ∈ (applyMutation store m).tasks) ∧
      (∀ ev ∈ store.events, ev.id ≠ item.id →
        ev ∈ (applyMutation store m).events) ∧
      (∀ tb ∈ store.timeBlocks, tb.id ≠ item.id →
        tb ∈ (applyMutation store m).timeBlocks) ∧
      (applyMutation store m).tasks.map StoredTask.title =
        store.tasks.map StoredTask.title ∧
      (applyMutation store m).events.map StoredEvent.title =
        store.events.map StoredEvent.title ∧
      (applyMutation store m).timeBlocks.map StoredTimeBlock.title =
        store.timeBlocks.map StoredTimeBlock.title) := by
  have htarget : ∀ m ∈ (handleDrop storeOk v (some item) dov
      dropDate).mutations, m.targetId = item.id := by
    intro m hm
    cases h : item.itemType <;>
      cases hE : item.endTime <;>
        cases hS : item.startTime <;>
          simp [handleDrop, dropTryBody, h, hE, hS] at hm <;>
          simp [hm, StoreMutation.targetId]
  refine ⟨htarget, ?_, ?_, ?_, ?_⟩
  · intro h
    simp [handleDrop, dropTryBody, h]
  · intro s e h hS hE
    refine ⟨startOfDayMs dropDate, startOfDayMs dropDate + (e - s), ?_,
      rfl, by ring⟩
    simp [handleDrop, dropTryBody, h, hS, hE]
  · intro s e h hS hE
    refine ⟨startOfDayMs dropDate, startOfDayMs dropDate + (e - s), ?_,
      rfl, by ring⟩
    simp [handleDrop, dropTryBody, h, hS, hE]
  · intro m hm
    have ht := htarget m hm
    have hf := applyMutation_frame store m
    rw [ht] at hf
    exact hf

theorem handleDrop_frame_witness :
    (handleDrop true
        ⟨⟨2024, 0, 1, 0⟩, ⟨2024, 0, 1, 0⟩, ViewType.month, false, false,
          false, false, false, false, "", "all", "all"⟩
        (some ⟨"t9", "water plants", none, ItemType.task, 0, none, none,
          none, none, none⟩) none 100000000).mutations =
      [StoreMutation.updTask "t9" ⟨some (startOfDayMs 100000000), none⟩] :=
  (handleDrop_frame true _ none 100000000
      ⟨"t9", "water plants", none, ItemType.task, 0, none, none, none,
        none, none⟩ ⟨[], [], []⟩).2.1 rfl

end Calendar
